import Mathlib

/-!
Verification of the relation-negotiation and mount-reconciliation core of the
`filesystem-charms` repository (charmed-hpc), against its design specification.

The Python source is shallowly embedded in Lean:

* A relation databag (`mapping<string,string>`) is an association list
  `List (String × String)`; Python `dict` lookup is `List.lookup` (keys built
  by the charms are unique, and every statement below is phrased so that
  duplicate keys do not matter).
* The JSON round-trip used by `json.dumps`/`json.loads` on string-to-string
  mappings is exact, so the mapping cached under the reserved `"cache"` key of
  a databag is modelled directly as the decoded mapping.
* Python set values (`Set` in `_Transaction`) are modelled as lists read up to
  membership.
-/

/-- Split a character list at every occurrence of `sep` (Python
`str.split(sep)` semantics: n separators yield n+1 fields, empty fields
kept). -/
def splitOnChar (sep : Char) : List Char → List (List Char)
  | [] => [[]]
  | c :: rest =>
    let r := splitOnChar sep rest
    if c = sep then [] :: r
    else
      match r with
      | [] => [[c]]
      | h :: t => (c :: h) :: t

/-- Python `s.split(sep)` for a single-character separator. -/
def strSplitOn (sep : Char) (s : String) : List String :=
  (splitOnChar sep s.data).map (fun cs => ⟨cs⟩)

namespace CephfsInterfaces

/-- A relation databag: `mapping<string,string>`. -/
abbrev Databag := List (String × String)

/-- Keys of a databag (Python `dict.keys()`). -/
def keys (m : Databag) : List String := m.map Prod.fst

/-- `_Transaction` from `cephfs_interfaces.py`: the added, changed and deleted
key sets of a databag diff (Python `Set` modelled as a list up to membership). -/
structure Transaction where
  added : List String
  changed : List String
  deleted : List String
deriving Repr, DecidableEq

/-- The state read and written by `_eval`: the remote application's databag
(`event.relation.data[event.app]`) and the snapshot stored under the reserved
`"cache"` key of the bucket databag (`event.relation.data[bucket]`), decoded;
`[]` models both an absent cache key and the `"{}"` default. -/
structure EvalScope where
  appBag : Databag
  bucketCache : Databag
deriving Repr, DecidableEq

/-- `new_data` in `_eval`: the current contents of the remote application's
databag excluding the reserved `"cache"` key. -/
def newData (s : EvalScope) : Databag :=
  s.appBag.filter (fun kv => kv.1 ≠ "cache")

/-- `_eval` from `cephfs_interfaces.py`: diff the current databag contents
against the cached snapshot, store the new snapshot back into the cache key,
and return the transaction. -/
def _eval (s : EvalScope) : Transaction × EvalScope :=
  let old_data := s.bucketCache
  let new_data := newData s
  let added := (keys new_data).filter (fun k => !(keys old_data).contains k)
  let deleted := (keys old_data).filter (fun k => !(keys new_data).contains k)
  let changed := (keys old_data).filter
    (fun k => (keys new_data).contains k && old_data.lookup k != new_data.lookup k)
  (⟨added, changed, deleted⟩, { s with bucketCache := new_data })

/-- Python `dict.update` on an association list: every key of `data` is
written into `m`, replacing the value in place when the key already exists and
appending otherwise. -/
def bagInsert (m : Databag) (k v : String) : Databag :=
  if (keys m).contains k then
    m.map (fun kv => if kv.1 = k then (k, v) else kv)
  else
    m ++ [(k, v)]

/-- `integration.data[self.app].update(data)`. -/
def bagUpdate (m : Databag) (data : Databag) : Databag :=
  data.foldl (fun acc kv => bagInsert acc kv.1 kv.2) m

/-- `_BaseInterface._update_data` from `cephfs_interfaces.py`: update the
application databag of the integration, but only when this unit is the
application leader. -/
def _update_data (is_leader : Bool) (bag : Databag) (data : Databag) : Databag :=
  if is_leader then bagUpdate bag data else bag

/-- `CephFSRequires.request_share` from `cephfs_interfaces.py`: a leader-gated
`_update_data` write of the requested share name. -/
def request_share (is_leader : Bool) (bag : Databag) (name : String) : Databag :=
  if is_leader then _update_data is_leader bag [("name", name)] else bag

/-- `CephFSAuthInfo` from `cephfs_interfaces.py`. -/
structure CephFSAuthInfo where
  username : String
  key : String
deriving Repr, DecidableEq

/-- `CephFSShareInfo` from `cephfs_interfaces.py`. -/
structure CephFSShareInfo where
  fsid : String
  name : String
  path : String
  monitor_hosts : List String
deriving Repr, DecidableEq

/-- `json.dumps(asdict(share_info))` in `set_share`; the JSON encoding of the
record (braces written with escapes). -/
def encodeShareInfo (s : CephFSShareInfo) : String :=
  "\x7b\"fsid\": \"" ++ s.fsid ++ "\", \"name\": \"" ++ s.name ++
    "\", \"path\": \"" ++ s.path ++ "\", \"monitor_hosts\": [" ++
    String.intercalate ", " (s.monitor_hosts.map (fun h => "\"" ++ h ++ "\"")) ++ "]\x7d"

/-- `json.dumps(asdict(auth_info))` for a `CephFSAuthInfo`. -/
def encodeAuthInfo (a : CephFSAuthInfo) : String :=
  "\x7b\"username\": \"" ++ a.username ++ "\", \"key\": \"" ++ a.key ++ "\"\x7d"

/-- The Juju secrets backend consumed by `set_share` (`self.app.add_secret`):
whether secret creation is available, and the fresh raw identifier the backend
would assign; ops canonicalizes secret ids to the `secret:<id>` form. -/
structure SecretsWorld where
  available : Bool
  fresh : String
deriving Repr, DecidableEq

/-- The observable outcome of one `set_share` call: the application databag
afterwards, the secrets created (id paired with serialized content) and the
list of secret ids granted to the integration. -/
structure SetShareResult where
  bag : Databag
  createdSecrets : List (String × String)
  grantedSecrets : List String
deriving Repr, DecidableEq

/-- `CephFSProvides.set_share` from `cephfs_interfaces.py`: when leader, create
a secret holding the auth info, grant it to the integration, and write the
serialized share info plus the secret id into the application databag. There is
no branch on secret availability: when `add_secret` fails the exception
propagates (`Except.error`) and nothing is written. -/
def set_share (is_leader : Bool) (w : SecretsWorld) (bag : Databag)
    (share_info : CephFSShareInfo) (auth_info : CephFSAuthInfo) :
    Except Unit SetShareResult :=
  if is_leader then
    if w.available then
      let sid := "secret:" ++ w.fresh
      .ok ⟨_update_data is_leader bag
            [("share_info", encodeShareInfo share_info), ("auth", sid)],
          [(sid, encodeAuthInfo auth_info)], [sid]⟩
    else
      .error ()
  else
    .ok ⟨bag, [], []⟩

/-- Python `auth.split(":", 1)` unpacked into two variables: `none` models the
`ValueError` branch (no `":"` separator), otherwise the prefix before the first
`":"` paired with the remainder. -/
def splitKind (s : String) : Option (String × String) :=
  match strSplitOn ':' s with
  | [] => none
  | [_] => none
  | k :: rest => some (k, String.intercalate ":" rest)

/-- The observable outcome of `_MountEvent.auth_info`. -/
inductive AuthOutcome where
  /-- `auth` key absent or empty: return `None` without a warning. -/
  | noData
  /-- Malformed pointer or unrecognized kind tag: log a warning, return `None`. -/
  | warnNone
  /-- A parsed `CephFSAuthInfo`. -/
  | ok (a : CephFSAuthInfo)
  /-- An uncaught exception (missing secret, bad JSON payload or bad fields). -/
  | raised
deriving Repr, DecidableEq

/-- `_MountEvent.auth_info` from `cephfs_interfaces.py`. `auth` is the value of
the `"auth"` key of the provider application databag; `get_secret` models
`self.framework.model.get_secret(id=...).get_content()` composed with
`CephFSAuthInfo(**auth)` (`none` = an exception); `parseAuthJson` models
`json.loads` composed with `CephFSAuthInfo(**auth)` (`none` = an exception). -/
def auth_info (auth : Option String)
    (get_secret : String → Option CephFSAuthInfo)
    (parseAuthJson : String → Option CephFSAuthInfo) : AuthOutcome :=
  match auth with
  | none => .noData
  | some a =>
    if a = "" then .noData
    else
      match splitKind a with
      | none => .warnNone
      | some (kind, data) =>
        if kind = "secret" then
          match get_secret a with
          | some i => .ok i
          | none => .raised
        else if kind = "plain" then
          match parseAuthJson data with
          | some i => .ok i
          | none => .raised
        else .warnNone

/-- `CephFSProvides._on_relation_changed` from `cephfs_interfaces.py`: when
leader, run the diff and emit `ShareRequested` iff `"name"` is among the added
keys. Returns whether the event was emitted, and the scope afterwards. -/
def cephfsProvides_on_relation_changed (is_leader : Bool) (s : EvalScope) :
    Bool × EvalScope :=
  if is_leader then
    let (transaction, s') := _eval s
    (transaction.added.contains "name", s')
  else
    (false, s)

end CephfsInterfaces

namespace MountInfoLib

open CephfsInterfaces (Databag bagUpdate)

/-- `MountInfo` from `mount_info.py`: the information required to mount a
filesystem, with permissive defaults. -/
structure MountInfo where
  mountpoint : String
  noexec : Bool := false
  nosuid : Bool := false
  nodev : Bool := false
  read_only : Bool := false
deriving Repr, DecidableEq

/-- `"true"`/`"false"` serialization of a boolean databag value. -/
def boolStr (b : Bool) : String := if b then "true" else "false"

/-- `relation.save(info, self.app)` (ops): serialize the `MountInfo` record
field by field into the application databag. -/
def saveFields (info : MountInfo) : Databag :=
  [("mountpoint", info.mountpoint), ("noexec", boolStr info.noexec),
   ("nosuid", boolStr info.nosuid), ("nodev", boolStr info.nodev),
   ("read_only", boolStr info.read_only)]

/-- `MountRequires.set_mount_info` from `mount_info.py`: return without
touching the databag unless this unit is the application leader; otherwise
save the mount info into the application databag. -/
def set_mount_info (is_leader : Bool) (bag : Databag) (info : MountInfo) : Databag :=
  if !is_leader then bag
  else bagUpdate bag (saveFields info)

/-- Python truthiness of `relation.data[...].get(key)`: present and non-empty. -/
def truthy : Option String → Bool
  | none => false
  | some s => !(s == "")

/-- The event emitted by `MountProvides._on_relation_changed`. -/
inductive MountProvidesEmit where
  | requested
  | unrequested
deriving Repr, DecidableEq

/-- `MountProvides._on_relation_changed` from `mount_info.py`: emit
`MountRequested` when the `"mountpoint"` key of the remote application databag
is truthy, `MountUnrequested` otherwise. No diff is computed and no leadership
check is made. -/
def mountProvides_on_relation_changed (appBag : Databag) : MountProvidesEmit :=
  if truthy (appBag.lookup "mountpoint") then .requested else .unrequested

end MountInfoLib

namespace Manager

/-! Embedding of `filesystem-client/src/utils/manager.py`. Python `sorted` on
strings compares by Unicode code point; it is modelled by a stable insertion
sort over the code-point order (`charLt`), which computes in the kernel. -/

/-- Code-point comparison of characters (Python string ordering). -/
def charLt (a b : Char) : Bool := a.toNat < b.toNat

/-- Lexicographic code-point comparison of character lists. -/
def charListLe : List Char → List Char → Bool
  | [], _ => true
  | _ :: _, [] => false
  | a :: as, b :: bs =>
    if charLt a b then true
    else if charLt b a then false
    else charListLe as bs

/-- Python `<=` on strings: lexicographic by code point. -/
def strLe (a b : String) : Bool := charListLe a.data b.data

/-- Stable insertion of `x` into a sorted list: `x` goes after every element
`y` with `le y x`, so equal elements keep their original relative order. -/
def insertSorted (le : α → α → Bool) (x : α) : List α → List α
  | [] => [x]
  | y :: ys => if le y x then y :: insertSorted le x ys else x :: y :: ys

/-- Stable sort (models Python `sorted`). -/
def sortBy (le : α → α → Bool) : List α → List α
  | [] => []
  | x :: xs => insertSorted le x (sortBy le xs)

/-- `FilesystemInfo` and its concrete kinds from
`charms/filesystem_client/v0/filesystem_info.py` (the module itself is not in
the sources; the constructors and their fields are taken from their uses in
`manager.py` and in the proxy charms: `NfsInfo(hostname, port, path)`,
`CephfsInfo(fsid, name, path, monitor_hosts, user, key)`,
`LustreInfo(mgs_ids, fs_name)`). -/
inductive FilesystemInfo where
  | nfs (hostname : String) (port : Option Nat) (path : String)
  | cephfs (fsid : String) (name : String) (path : String)
      (monitor_hosts : List String) (user : String) (key : String)
  | lustre (mgs_ids : List String) (fs_name : String)
deriving Repr, DecidableEq

/-- `manager._MountInfo`: one autofs table entry. -/
structure MountEntry where
  endpoint : String
  options : List String
deriving Repr, DecidableEq

/-- The mount table built by `Mounts` (`self._mounts`, a `dict` keyed by
mountpoint, modelled as an association list with unique keys kept in insertion
order). -/
abbrev MountTable := List (String × MountEntry)

/-- Python `dict` assignment `self._mounts[k] = v`. -/
def tableInsert (m : MountTable) (k : String) (v : MountEntry) : MountTable :=
  if (m.map Prod.fst).contains k then
    m.map (fun kv => if kv.1 = k then (k, v) else kv)
  else
    m ++ [(k, v)]

/-- `manager._get_endpoint_and_opts`: endpoint string and additional mount
options per filesystem kind. `isIPv6` models the `IPv6Address(hostname)` parse
succeeding. Any kind other than NFS or CephFS falls into the `case _` branch
and raises `Error` (modelled by `Except.error` carrying the message). -/
def _get_endpoint_and_opts (isIPv6 : String → Bool) :
    FilesystemInfo → Except String (String × List String)
  | .nfs hostname port path =>
    let hostname := if isIPv6 hostname then "[" ++ hostname ++ "]" else hostname
    let endpoint := hostname ++ ":" ++ path
    let options := ["fstype=nfs", "nfsvers=4", "minorversion=2"] ++
      -- `if port:` — Python truthiness, so `port=0` is not appended.
      (match port with
       | some p => if p ≠ 0 then ["port=" ++ toString p] else []
       | none => [])
    .ok (endpoint, options)
  | .cephfs fsid name path mons user key =>
    let mon_addr := String.intercalate "/" mons
    let endpoint := user ++ "@" ++ fsid ++ "." ++ name ++ "=" ++ path
    let options := ["fstype=ceph", "mon_addr=" ++ mon_addr, "secret=" ++ key]
    .ok (endpoint, options)
  | .lustre _ _ => .error "unsupported filesystem type `lustre`"

/-- `Mounts.add`: compute the endpoint and options for `info`, sort the merged
option list, and store the entry under the mountpoint. -/
def Mounts.add (isIPv6 : String → Bool) (m : MountTable) (info : FilesystemInfo)
    (mountpoint : String) (options : List String) : Except String MountTable :=
  match _get_endpoint_and_opts isIPv6 info with
  | .error e => .error e
  | .ok (endpoint, additional_opts) =>
    .ok (tableInsert m mountpoint ⟨endpoint, sortBy strLe (options ++ additional_opts)⟩)

/-- `sorted(mounts._mounts.items())`: the table ordered by mountpoint (keys are
unique, so comparison never reaches the second tuple component). -/
def sortedTable (table : MountTable) : MountTable :=
  sortBy (fun a b => strLe a.1 b.1) table

/-- The autofs table text built by `MountsManager.mounts`:
`f"{mountpoint} -{','.join(info.options)} {info.endpoint}"` per entry, joined
by newlines over the sorted table. -/
def buildAutofs (table : MountTable) : String :=
  String.intercalate "\n" ((sortedTable table).map
    (fun kv => kv.1 ++ " -" ++ String.intercalate "," kv.2.options ++ " " ++ kv.2.endpoint))

/-- The machine state the reconciliation pass touches: the current contents of
`self._autofs_file` and which of the three side effects would fail
(`mkdirFails` lists mountpoints whose `Path.mkdir` raises `OSError`). -/
structure Sys where
  autofsText : String
  mkdirFails : List String
  writeFails : Bool
  reloadFails : Bool
deriving Repr, DecidableEq

/-- Exceptions escaping the reconciliation pass. Only `systemd.SystemdError`
is caught and re-raised as `manager.Error` (`mountError`); `OSError` from
`mkdir` and `IOError` from `write_text` propagate unwrapped. -/
inductive MountExc where
  | osError
  | ioError
  | mountError (msg : String)
deriving Repr, DecidableEq

/-- Whether an escaped exception is the labelled `manager.Error`. -/
def MountExc.isMountError : MountExc → Bool
  | .mountError _ => true
  | _ => false

/-- The side effects one reconciliation pass performed. -/
structure Trace where
  mkdirs : List String
  wrote : Bool
  reloaded : Bool
deriving Repr, DecidableEq

/-- Outcome of one reconciliation pass. -/
structure MountsResult where
  result : Except MountExc Unit
  sys : Sys
  trace : Trace
deriving Repr

/-- `for mount in mounts._mounts.keys(): Path(mount).mkdir(...)`: the
mountpoints attempted in order, stopping at the first failure. -/
def runMkdirs (fails : List String) : List String → List String × Option String
  | [] => ([], none)
  | mp :: rest =>
    if fails.contains mp then ([mp], some mp)
    else
      let (calls, failed) := runMkdirs fails rest
      (mp :: calls, failed)

/-- The body of the `MountsManager.mounts` context manager after the caller
returned (`manager.py` lines 162–196): build the new autofs text, compare with
the old text, and if different create the mountpoint directories, write the
file, then reload the autofs service. -/
def MountsManager.mounts (force_mount : Bool) (table : MountTable) (sys : Sys) :
    MountsResult :=
  let new_autofs := buildAutofs table
  let old_autofs := sys.autofsText
  if !force_mount && (new_autofs == old_autofs) then
    ⟨.ok (), sys, ⟨[], false, false⟩⟩
  else
    let (calls, failed) := runMkdirs sys.mkdirFails (table.map Prod.fst)
    match failed with
    | some _ => ⟨.error .osError, sys, ⟨calls, false, false⟩⟩
    | none =>
      if sys.writeFails then
        ⟨.error .ioError, sys, ⟨calls, false, false⟩⟩
      else
        let sys' := { sys with autofsText := new_autofs }
        if sys.reloadFails then
          ⟨.error (.mountError "failed to mount filesystems"), sys', ⟨calls, true, true⟩⟩
        else
          ⟨.ok (), sys', ⟨calls, true, true⟩⟩

end Manager

namespace ProxyCharm

/-! Embedding of `cephfs-server-proxy/src/charm.py`. The value stored by
`set_state("config", ...)` is a JSON object whose round-trip through
`json.dumps`/`json.loads` is exact, so the peer application databag's
`"config"` key is modelled as `Option ConfigRecord`: `none` models both an
absent key and the `"{}"` default of `get_state` (the only falsy dict). -/

/-- The record `_on_config_changed` stores under the `"config"` state key. -/
structure ConfigRecord where
  fsid : String
  name : String
  path : String
  monitor_hosts : List String
  username : String
  key : String
deriving Repr, DecidableEq

/-- The charm configuration keys read by `_on_config_changed`
(`self.config.get(k)`: `none` models an unset option). -/
structure ProxyConfig where
  fsid : Option String
  sharepoint : Option String
  monitorHosts : Option String
  authInfo : Option String
deriving Repr, DecidableEq

/-- Python `s.split(":")` unpacked into exactly two names; `none` models the
`ValueError` raised for any other number of parts. -/
def split2 (s : String) : Option (String × String) :=
  match strSplitOn ':' s with
  | [a, b] => some (a, b)
  | _ => none

/-- Python `s.split()`: split on whitespace runs, dropping empty fields
(space is the only whitespace appearing in these config values). -/
def splitWs (s : String) : List String :=
  (strSplitOn ' ' s).filter (fun p => p ≠ "")

/-- `f"Missing config key{'s' if len(missing) > 1 else ''} {', '.join(missing)}"`. -/
def missingMsg (missing : List String) : String :=
  "Missing config key" ++ (if missing.length > 1 then "s" else "") ++ " " ++
    String.intercalate ", " missing

/-- How one `config-changed` dispatch ended. -/
inductive ConfigOutcome where
  /-- A non-empty `"config"` record already existed: warn and return. -/
  | keptExisting
  /-- Missing config keys: blocked status, nothing stored. -/
  | blocked (msg : String)
  /-- `ValueError` from unpacking `sharepoint`/`auth-info` splits. -/
  | raisedSplit
  /-- The parsed record was stored. -/
  | stored (r : ConfigRecord)
deriving Repr, DecidableEq

/-- `CephFSServerProxyCharm._on_config_changed`: returns the `"config"` state
afterwards and the outcome. The first test is
`if self.get_state("config"):` — any already-stored (hence non-empty) record
makes the handler return without writing. -/
def _on_config_changed (st : Option ConfigRecord) (cfg : ProxyConfig) :
    Option ConfigRecord × ConfigOutcome :=
  if st.isSome then
    (st, .keptExisting)
  else
    let pairs := [("fsid", cfg.fsid), ("sharepoint", cfg.sharepoint),
                  ("monitor-hosts", cfg.monitorHosts), ("auth-info", cfg.authInfo)]
    let missing := (pairs.filter (fun kv => !MountInfoLib.truthy kv.2)).map Prod.fst
    if missing.isEmpty then
      match split2 (cfg.sharepoint.getD ""), split2 (cfg.authInfo.getD "") with
      | some (fs_name, fs_path), some (username, cephx_key) =>
        let r : ConfigRecord :=
          ⟨cfg.fsid.getD "", fs_name, fs_path, splitWs (cfg.monitorHosts.getD ""),
           username, cephx_key⟩
        (some r, .stored r)
      | _, _ => (st, .raisedSplit)
    else
      (st, .blocked (missingMsg missing))

end ProxyCharm

namespace SpecView

/-! Definitions written from the specification's words (section 4.4), used to
compare the code's mount-table construction against the spec's description. -/

/-- Spec: NFS endpoint string is `host:path`, bracketing literal IPv6 hosts. -/
def nfsEndpoint (isIPv6 : String → Bool) (host path : String) : String :=
  (if isIPv6 host then "[" ++ host ++ "]" else host) ++ ":" ++ path

/-- Spec: CephFS endpoint string is `user@fsid.name=path`. -/
def cephfsEndpoint (user fsid name path : String) : String :=
  user ++ "@" ++ fsid ++ "." ++ name ++ "=" ++ path

/-- Spec: one table line per mountpoint, its options comma-joined. -/
def tableLine (kv : String × Manager.MountEntry) : String :=
  kv.1 ++ " -" ++ String.intercalate "," kv.2.options ++ " " ++ kv.2.endpoint

end SpecView

open CephfsInterfaces MountInfoLib Manager ProxyCharm

/-! ### Helper lemmas about the code-point order and the stable sort -/

theorem charListLe_cons (a b : Char) (as bs : List Char) :
    charListLe (a :: as) (b :: bs) = true ↔
      (a.toNat < b.toNat ∨ (a.toNat = b.toNat ∧ charListLe as bs = true)) := by
  simp only [charListLe, charLt]
  rcases Nat.lt_trichotomy a.toNat b.toNat with h | h | h
  · simp [h]
  · have h1 : ¬ a.toNat < b.toNat := by omega
    have h2 : ¬ b.toNat < a.toNat := by omega
    simp [h1, h2, h]
  · have h1 : ¬ a.toNat < b.toNat := by omega
    simp [h1, h]
    omega

theorem charListLe_trans (as bs cs : List Char)
    (h1 : charListLe as bs = true) (h2 : charListLe bs cs = true) :
    charListLe as cs = true := by
  induction as generalizing bs cs with
  | nil => rfl
  | cons a as ih =>
    cases bs with
    | nil => simp [charListLe] at h1
    | cons b bs =>
      cases cs with
      | nil => simp [charListLe] at h2
      | cons c cs =>
        rw [charListLe_cons] at h1 h2 ⊢
        rcases h1 with h1 | ⟨h1e, h1r⟩ <;> rcases h2 with h2 | ⟨h2e, h2r⟩
        · exact Or.inl (by omega)
        · exact Or.inl (by omega)
        · exact Or.inl (by omega)
        · exact Or.inr ⟨by omega, ih bs cs h1r h2r⟩

theorem charListLe_total (as bs : List Char) :
    charListLe as bs = true ∨ charListLe bs as = true := by
  induction as generalizing bs with
  | nil => left; rfl
  | cons a as ih =>
    cases bs with
    | nil => right; rfl
    | cons b bs =>
      rw [charListLe_cons, charListLe_cons]
      rcases Nat.lt_trichotomy a.toNat b.toNat with h | h | h
      · exact Or.inl (Or.inl h)
      · rcases ih bs with hr | hr
        · exact Or.inl (Or.inr ⟨h, hr⟩)
        · exact Or.inr (Or.inr ⟨h.symm, hr⟩)
      · exact Or.inr (Or.inl h)

theorem strLe_trans (a b c : String) (h1 : strLe a b = true) (h2 : strLe b c = true) :
    strLe a c = true :=
  charListLe_trans a.data b.data c.data h1 h2

theorem strLe_total (a b : String) : strLe a b = true ∨ strLe b a = true :=
  charListLe_total a.data b.data

theorem perm_insertSorted (le : α → α → Bool) (x : α) (l : List α) :
    List.Perm (insertSorted le x l) (x :: l) := by
  induction l with
  | nil => rfl
  | cons y ys ih =>
    simp only [insertSorted]
    by_cases h : le y x = true
    · simp only [h, if_true]
      exact ((ih.cons y).trans (List.Perm.swap x y ys))
    · simp [h]

theorem sortBy_perm (le : α → α → Bool) (l : List α) : List.Perm (sortBy le l) l := by
  induction l with
  | nil => rfl
  | cons x xs ih => exact (perm_insertSorted le x (sortBy le xs)).trans (ih.cons x)

theorem pairwise_insertSorted (le : α → α → Bool)
    (htot : ∀ a b, le a b = true ∨ le b a = true)
    (htrans : ∀ a b c, le a b = true → le b c = true → le a c = true)
    (x : α) (l : List α) (h : l.Pairwise (fun a b => le a b = true)) :
    (insertSorted le x l).Pairwise (fun a b => le a b = true) := by
  induction l with
  | nil => simp [insertSorted]
  | cons y ys ih =>
    rcases List.pairwise_cons.mp h with ⟨hy, hys⟩
    simp only [insertSorted]
    by_cases hyx : le y x = true
    · simp only [hyx, if_true]
      refine List.pairwise_cons.mpr ⟨?_, ih hys⟩
      intro z hz
      rcases List.mem_cons.mp ((perm_insertSorted le x ys).mem_iff.mp hz) with rfl | hzys
      · exact hyx
      · exact hy z hzys
    · have hxy : le x y = true := (htot x y).resolve_right (fun hc => hyx hc)
      simp only [hyx, if_false]
      refine List.pairwise_cons.mpr ⟨?_, h⟩
      intro z hz
      rcases List.mem_cons.mp hz with rfl | hzys
      · exact hxy
      · exact htrans x y z hxy (hy z hzys)

theorem sortBy_pairwise (le : α → α → Bool)
    (htot : ∀ a b, le a b = true ∨ le b a = true)
    (htrans : ∀ a b c, le a b = true → le b c = true → le a c = true)
    (l : List α) :
    (sortBy le l).Pairwise (fun a b => le a b = true) := by
  induction l with
  | nil => simp [sortBy]
  | cons x xs ih => exact pairwise_insertSorted le htot htrans x (sortBy le xs) ih

/-! ### Helper lemmas about databags and the reconciliation pass -/

theorem lookup_map_replace (m : Databag) (k v : String) (h : k ∈ keys m) :
    (m.map (fun kv => if kv.1 = k then (k, v) else kv)).lookup k = some v := by
  induction m with
  | nil => simp [keys] at h
  | cons p ps ih =>
    obtain ⟨pk, pv⟩ := p
    by_cases hp : pk = k
    · subst hp
      simp [List.lookup_cons]
    · have h' : k ∈ keys ps := by
        simp only [keys, List.map_cons, List.mem_cons] at h
        rcases h with h | h
        · exact absurd h.symm hp
        · exact h
      simp only [List.map_cons]
      simp [hp, List.lookup_cons, beq_false_of_ne (fun hc : k = pk => hp hc.symm)]
      exact ih h'

theorem lookup_append_single_self (m : Databag) (k v : String) (h : k ∉ keys m) :
    (m ++ [(k, v)]).lookup k = some v := by
  induction m with
  | nil => simp [List.lookup_cons]
  | cons p ps ih =>
    obtain ⟨pk, pv⟩ := p
    simp only [keys, List.map_cons, List.mem_cons, not_or] at h
    simp only [List.cons_append]
    simp [List.lookup_cons, beq_false_of_ne h.1]
    exact ih (by simp only [keys]; exact h.2)

theorem lookup_bagInsert_self (m : Databag) (k v : String) :
    (bagInsert m k v).lookup k = some v := by
  unfold bagInsert
  by_cases h : k ∈ keys m
  · rw [if_pos (by simpa using h)]
    exact lookup_map_replace m k v h
  · rw [if_neg (by simpa using h)]
    exact lookup_append_single_self m k v h

theorem lookup_map_replace_ne (m : Databag) (k v k' : String) (h : k' ≠ k) :
    (m.map (fun kv => if kv.1 = k then (k, v) else kv)).lookup k' = m.lookup k' := by
  induction m with
  | nil => rfl
  | cons p ps ih =>
    obtain ⟨pk, pv⟩ := p
    by_cases hp : pk = k
    · subst hp
      simp [List.lookup_cons, beq_false_of_ne h]
      exact ih
    · simp only [List.map_cons, hp, if_false]
      by_cases hk' : k' = pk
      · subst hk'
        simp [List.lookup_cons]
      · simp [List.lookup_cons, beq_false_of_ne hk']
        exact ih

theorem lookup_append_single_ne (m : Databag) (k v k' : String) (h : k' ≠ k) :
    (m ++ [(k, v)]).lookup k' = m.lookup k' := by
  induction m with
  | nil => simp [List.lookup_cons, beq_false_of_ne h]
  | cons p ps ih =>
    obtain ⟨pk, pv⟩ := p
    by_cases hk' : k' = pk
    · subst hk'
      simp [List.lookup_cons]
    · simp only [List.cons_append]
      simp [List.lookup_cons, beq_false_of_ne hk']
      exact ih

theorem lookup_bagInsert_ne (m : Databag) (k v k' : String) (h : k' ≠ k) :
    (bagInsert m k v).lookup k' = m.lookup k' := by
  unfold bagInsert
  by_cases hc : (keys m).contains k = true
  · simp only [hc, if_true]
    exact lookup_map_replace_ne m k v k' h
  · simp only [hc, if_false]
    exact lookup_append_single_ne m k v k' h

theorem mounts_ok_autofs (force : Bool) (table : MountTable) (sys : Sys)
    (h : (MountsManager.mounts force table sys).result = .ok ()) :
    (MountsManager.mounts force table sys).sys.autofsText = buildAutofs table := by
  by_cases hskip : (!force && (buildAutofs table == sys.autofsText)) = true
  · have h2 := ((Bool.and_eq_true _ _).mp hskip).2
    simp only [MountsManager.mounts, hskip, if_true]
    exact (beq_iff_eq.mp h2).symm
  · rcases hrun : runMkdirs sys.mkdirFails (table.map Prod.fst) with ⟨calls, failed⟩
    cases failed with
    | some mp => exfalso; simp [MountsManager.mounts, hskip, hrun] at h
    | none =>
      by_cases hw : sys.writeFails = true
      · exfalso; simp [MountsManager.mounts, hskip, hrun, hw] at h
      · by_cases hr : sys.reloadFails = true
        · exfalso; simp [MountsManager.mounts, hskip, hrun, hw, hr] at h
        · simp [MountsManager.mounts, hskip, hrun, hw, hr]

/-! ### Claim theorems -/

/-- C1: for every pair of databag snapshots — `old` the mapping decoded from
the reserved `cache` key (empty if absent) and `new` the current contents
excluding the `cache` key — `_eval` returns a transaction with
`added = keys(new) − keys(old)`, `deleted = keys(old) − keys(new)` and
`changed = {k ∈ keys(old) ∩ keys(new) : old[k] ≠ new[k]}`. -/
theorem eval_diff_sets (s : EvalScope) (k : String) :
    (k ∈ (_eval s).1.added ↔ k ∈ keys (newData s) ∧ k ∉ keys s.bucketCache) ∧
    (k ∈ (_eval s).1.deleted ↔ k ∈ keys s.bucketCache ∧ k ∉ keys (newData s)) ∧
    (k ∈ (_eval s).1.changed ↔ k ∈ keys s.bucketCache ∧ k ∈ keys (newData s) ∧
      s.bucketCache.lookup k ≠ (newData s).lookup k) := by
  simp [_eval, List.mem_filter, and_assoc]

/-- C4: immediately repeating `_eval` with no intervening writes yields a
transaction whose added, changed and deleted sets are all empty, because the
first call advanced the cached baseline to the current contents. -/
theorem eval_second_call_empty (s : EvalScope) :
    (_eval (_eval s).2).1 = ⟨[], [], []⟩ := by
  simp [_eval, newData, List.filter_eq_nil_iff]

/-- C2: every shared-scope write operation invoked while the unit is not the
application leader (`_update_data`, `CephFSRequires.request_share`,
`CephFSProvides.set_share`, `MountRequires.set_mount_info`) leaves the
application databag unchanged and raises no error. -/
theorem nonleader_writes_are_noops (bag data : Databag) (name : String)
    (info : MountInfo) (w : SecretsWorld) (si : CephFSShareInfo)
    (ai : CephFSAuthInfo) :
    _update_data false bag data = bag ∧
    request_share false bag name = bag ∧
    set_share false w bag si ai = .ok ⟨bag, [], []⟩ ∧
    set_mount_info false bag info = bag :=
  ⟨rfl, rfl, rfl, rfl⟩

/-- C10: once a (necessarily non-empty) `config` record is stored in the peer
application databag, every subsequent `config-changed` dispatch returns early
and leaves the stored record unchanged, whatever the new charm configuration
says. -/
theorem config_info_write_once (r : ConfigRecord) (cfg : ProxyConfig) :
    _on_config_changed (some r) cfg = (some r, .keptExisting) := rfl

/-- C7 counterexample: with `mountpoint` present but unchanged (already in the
cached snapshot, so not in the diff's added set), `MountProvides` still emits
`MountRequested` — the requested event is emitted on mere presence of the key,
not exactly on its appearance in `added`. -/
theorem mount_requested_on_unchanged_key :
    mountProvides_on_relation_changed [("mountpoint", "/srv")] = .requested ∧
    (_eval ⟨[("mountpoint", "/srv")], [("mountpoint", "/srv")]⟩).1.added = [] :=
  ⟨rfl, rfl⟩

/-- C7 amended: `CephFSProvides` emits `ShareRequested` exactly when the unit
is leader and `"name"` appears in the diff's added set, while `MountProvides`
emits `MountRequested` exactly when the `"mountpoint"` key is present and
non-empty in the requirer's application databag, regardless of the diff. -/
theorem provider_requested_emission (b : Databag) (is_leader : Bool) (s : EvalScope) :
    (mountProvides_on_relation_changed b = .requested ↔
      ∃ v, b.lookup "mountpoint" = some v ∧ v ≠ "") ∧
    ((cephfsProvides_on_relation_changed is_leader s).1 = true ↔
      is_leader = true ∧ "name" ∈ (_eval s).1.added) := by
  constructor
  · unfold mountProvides_on_relation_changed
    cases hl : b.lookup "mountpoint" with
    | none => simp [truthy, hl]
    | some v =>
      by_cases hv : v = ""
      · subst hv; simp [truthy]
      · simp [truthy, hv]
  · cases is_leader with
    | false => simp [cephfsProvides_on_relation_changed]
    | true => simp [cephfsProvides_on_relation_changed]

/-- C9: the requirer's auth-info resolution returns a logged-warning `None`
(rather than raising) exactly when the stored value has no `:` separator or a
kind tag that is neither `secret` nor `plain`; it returns a parsed
`CephFSAuthInfo` exactly for a well-formed `secret:` pointer resolved through
the secret store or a well-formed `plain:` JSON payload. -/
theorem auth_info_defensive (a : String)
    (gs pj : String → Option CephFSAuthInfo) :
    (auth_info (some a) gs pj = .warnNone ↔
      a ≠ "" ∧ (splitKind a = none ∨
        ∃ k d, splitKind a = some (k, d) ∧ k ≠ "secret" ∧ k ≠ "plain")) ∧
    (∀ i, auth_info (some a) gs pj = .ok i ↔
      (∃ d, splitKind a = some ("secret", d) ∧ gs a = some i) ∨
      (∃ d, splitKind a = some ("plain", d) ∧ pj d = some i)) := by
  by_cases ha : a = ""
  · subst ha
    have hsk : splitKind "" = none := rfl
    constructor
    · simp [auth_info]
    · intro i
      simp [auth_info, hsk]
  · rcases hsk : splitKind a with _ | ⟨k, d⟩
    · constructor
      · simp [auth_info, ha, hsk]
      · intro i
        simp [auth_info, ha, hsk]
    · by_cases hks : k = "secret"
      · subst hks
        constructor
        · cases hgs : gs a <;> simp [auth_info, ha, hsk, hgs]
        · intro i
          cases hgs : gs a with
          | none => simp [auth_info, ha, hsk, hgs]
          | some j => simp [auth_info, ha, hsk, hgs, eq_comm]
      · by_cases hkp : k = "plain"
        · subst hkp
          constructor
          · cases hpj : pj d <;> simp [auth_info, ha, hsk, hpj]
          · intro i
            cases hpj : pj d with
            | none => simp [auth_info, ha, hsk, hpj]
            | some j => simp [auth_info, ha, hsk, hpj, eq_comm]
        · constructor
          · simp [auth_info, ha, hsk, hks, hkp]
          · intro i
            simp [auth_info, ha, hsk, hks, hkp]

/-- C3: if a reconciliation pass succeeds, the persisted text equals the newly
built table text, and an immediately repeated pass with the same desired set
returns without side effects: no directory creation, no file write, no reload
(so at most one reload across the two passes). -/
theorem reconcile_twice_stable (force1 : Bool) (table : MountTable) (sys : Sys)
    (h : (MountsManager.mounts force1 table sys).result = .ok ()) :
    buildAutofs table = (MountsManager.mounts force1 table sys).sys.autofsText ∧
    MountsManager.mounts false table (MountsManager.mounts force1 table sys).sys =
      ⟨.ok (), (MountsManager.mounts force1 table sys).sys, ⟨[], false, false⟩⟩ := by
  have htext := mounts_ok_autofs force1 table sys h
  refine ⟨htext.symm, ?_⟩
  have hcond : (!false &&
      (buildAutofs table == (MountsManager.mounts force1 table sys).sys.autofsText)) = true := by
    simp [htext]
  conv_lhs => rw [MountsManager.mounts]
  simp only [hcond, if_true]

/-- C3 witness: a concrete successful first pass, instantiating
`reconcile_twice_stable`. -/
theorem reconcile_twice_stable_witness :
    (MountsManager.mounts false [("/data", ⟨"host:/export", ["rw"]⟩)]
      ⟨"", [], false, false⟩).result = .ok () ∧
    (buildAutofs [("/data", ⟨"host:/export", ["rw"]⟩)] =
      (MountsManager.mounts false [("/data", ⟨"host:/export", ["rw"]⟩)]
        ⟨"", [], false, false⟩).sys.autofsText ∧
    MountsManager.mounts false [("/data", ⟨"host:/export", ["rw"]⟩)]
      (MountsManager.mounts false [("/data", ⟨"host:/export", ["rw"]⟩)]
        ⟨"", [], false, false⟩).sys =
      ⟨.ok (), (MountsManager.mounts false [("/data", ⟨"host:/export", ["rw"]⟩)]
        ⟨"", [], false, false⟩).sys, ⟨[], false, false⟩⟩) :=
  ⟨rfl, reconcile_twice_stable false [("/data", ⟨"host:/export", ["rw"]⟩)]
    ⟨"", [], false, false⟩ rfl⟩

/-- C6 counterexample: a failure during mountpoint directory creation escapes
as the raw `OSError`, not as the labelled `manager.Error` the claim
describes. -/
theorem mkdir_failure_not_mount_error :
    (MountsManager.mounts false [("/data", ⟨"host:/export", ["rw"]⟩)]
      ⟨"", ["/data"], false, false⟩).result = .error .osError ∧
    MountExc.osError.isMountError = false :=
  ⟨rfl, rfl⟩

/-- C6 amended: a reload failure surfaces as `manager.Error` with the message
`failed to mount filesystems` after the whole new table was committed, while
directory-creation and file-write failures propagate as the underlying OS
exceptions leaving the previous table authoritative; in every case the
persisted text is either the whole new table or the untouched old one. -/
theorem mounts_failure_taxonomy (force : Bool) (table : MountTable) (sys : Sys)
    (e : MountExc)
    (h : (MountsManager.mounts force table sys).result = .error e) :
    (e = .mountError "failed to mount filesystems" ∧
      (MountsManager.mounts force table sys).sys.autofsText = buildAutofs table) ∨
    ((e = .osError ∨ e = .ioError) ∧
      (MountsManager.mounts force table sys).sys = sys) := by
  by_cases hskip : (!force && (buildAutofs table == sys.autofsText)) = true
  · exfalso; simp [MountsManager.mounts, hskip] at h
  · rcases hrun : runMkdirs sys.mkdirFails (table.map Prod.fst) with ⟨calls, failed⟩
    cases failed with
    | some mp =>
      right
      simp [MountsManager.mounts, hskip, hrun] at h ⊢
      simp [← h]
    | none =>
      by_cases hw : sys.writeFails = true
      · right
        simp [MountsManager.mounts, hskip, hrun, hw] at h ⊢
        simp [← h]
      · by_cases hr : sys.reloadFails = true
        · left
          simp [MountsManager.mounts, hskip, hrun, hw, hr] at h ⊢
          exact h.symm
        · exfalso; simp [MountsManager.mounts, hskip, hrun, hw, hr] at h

/-- C6 witness: a concrete reload failure, instantiating
`mounts_failure_taxonomy`. -/
theorem mounts_failure_taxonomy_witness :
    (MountsManager.mounts false [("/data", ⟨"host:/export", ["rw"]⟩)]
      ⟨"old", [], false, true⟩).result =
      .error (.mountError "failed to mount filesystems") ∧
    ((MountExc.mountError "failed to mount filesystems" =
        .mountError "failed to mount filesystems" ∧
      (MountsManager.mounts false [("/data", ⟨"host:/export", ["rw"]⟩)]
        ⟨"old", [], false, true⟩).sys.autofsText =
        buildAutofs [("/data", ⟨"host:/export", ["rw"]⟩)]) ∨
    ((MountExc.mountError "failed to mount filesystems" = .osError ∨
      MountExc.mountError "failed to mount filesystems" = .ioError) ∧
      (MountsManager.mounts false [("/data", ⟨"host:/export", ["rw"]⟩)]
        ⟨"old", [], false, true⟩).sys = ⟨"old", [], false, true⟩)) :=
  ⟨rfl, mounts_failure_taxonomy false [("/data", ⟨"host:/export", ["rw"]⟩)]
    ⟨"old", [], false, true⟩ (.mountError "failed to mount filesystems") rfl⟩

/-- C5 counterexample: a Lustre endpoint is not rendered in an
`mgs_ids@fsname` form; `_get_endpoint_and_opts` falls into the `case _` branch
and raises `Error`, which `Mounts.add` propagates. -/
theorem lustre_endpoint_unsupported :
    _get_endpoint_and_opts (fun _ => false) (.lustre ["mgs0@tcp"] "lusfs") =
      .error "unsupported filesystem type `lustre`" ∧
    Mounts.add (fun _ => false) [] (.lustre ["mgs0@tcp"] "lusfs") "/lus" [] =
      .error "unsupported filesystem type `lustre`" :=
  ⟨rfl, rfl⟩

/-- C5 amended: the mount-table text is built deterministically — one line per
mountpoint over the lexicographically key-sorted table, options sorted and
comma-joined, NFS endpoints as `host:path` with literal IPv6 hosts bracketed,
CephFS endpoints as `user@fsid.name=path` with monitor hosts joined by `/` in
a `mon_addr` option — while Lustre descriptors are rejected with an
unsupported-filesystem error instead of an `mgs_ids@fsname` endpoint. -/
theorem mount_table_build (isIPv6 : String → Bool) (table : MountTable)
    (opts : List String) (host path : String) (port : Option Nat)
    (fsid name cpath user ckey : String) (mons : List String)
    (mgs : List String) (fsn : String) :
    buildAutofs table =
      String.intercalate "\n" ((sortedTable table).map SpecView.tableLine) ∧
    ((sortedTable table).map Prod.fst).Pairwise (fun a b => strLe a b = true) ∧
    List.Perm (sortedTable table) table ∧
    (sortBy strLe opts).Pairwise (fun a b => strLe a b = true) ∧
    List.Perm (sortBy strLe opts) opts ∧
    (∃ o, _get_endpoint_and_opts isIPv6 (.nfs host port path) =
      .ok (SpecView.nfsEndpoint isIPv6 host path, o)) ∧
    (∃ o, _get_endpoint_and_opts isIPv6 (.cephfs fsid name cpath mons user ckey) =
      .ok (SpecView.cephfsEndpoint user fsid name cpath, o) ∧
      ("mon_addr=" ++ String.intercalate "/" mons) ∈ o) ∧
    (∃ msg, _get_endpoint_and_opts isIPv6 (.lustre mgs fsn) = .error msg) := by
  refine ⟨rfl, ?_, ?_, ?_, ?_, ⟨_, rfl⟩, ⟨_, rfl, by simp⟩, ⟨_, rfl⟩⟩
  · have hp := sortBy_pairwise (fun a b : String × MountEntry => strLe a.1 b.1)
      (fun a b => strLe_total a.1 b.1)
      (fun a b c h1 h2 => strLe_trans a.1 b.1 c.1 h1 h2) table
    exact List.pairwise_map.mpr hp
  · exact sortBy_perm _ table
  · exact sortBy_pairwise strLe strLe_total strLe_trans opts
  · exact sortBy_perm strLe opts

/-- C8 counterexample: when the secrets backend is unavailable, `set_share`
does not fall back to an inline `plain:<json>` record — the `add_secret`
failure propagates and nothing is written. -/
theorem set_share_no_plain_fallback :
    set_share true ⟨false, "id0"⟩ []
      ⟨"fsid0", "cephfs", "/export", ["mon1:6789"]⟩ ⟨"client", "cephxkey"⟩ =
      .error () := rfl

/-- C8 amended: a leader `set_share` (with the secrets backend available)
writes the serialized share record and an `auth` value that is the indirect
pointer `secret:<id>` — never an inline `plain:<json>` value — and grants the
created secret to the relation. -/
theorem set_share_secret_pointer (w : SecretsWorld) (bag : Databag)
    (si : CephFSShareInfo) (ai : CephFSAuthInfo) (h : w.available = true) :
    ∃ r, set_share true w bag si ai = .ok r ∧
      r.bag.lookup "share_info" = some (encodeShareInfo si) ∧
      r.bag.lookup "auth" = some ("secret:" ++ w.fresh) ∧
      r.grantedSecrets = ["secret:" ++ w.fresh] ∧
      r.createdSecrets = [("secret:" ++ w.fresh, encodeAuthInfo ai)] ∧
      (∀ j : String, "secret:" ++ w.fresh ≠ "plain:" ++ j) := by
  refine ⟨⟨_update_data true bag
      [("share_info", encodeShareInfo si), ("auth", "secret:" ++ w.fresh)],
      [("secret:" ++ w.fresh, encodeAuthInfo ai)], ["secret:" ++ w.fresh]⟩,
    ?_, ?_, ?_, rfl, rfl, ?_⟩
  · simp [set_share, h]
  · show (bagInsert (bagInsert bag "share_info" (encodeShareInfo si))
      "auth" ("secret:" ++ w.fresh)).lookup "share_info" = some (encodeShareInfo si)
    rw [lookup_bagInsert_ne _ _ _ _ (by decide)]
    exact lookup_bagInsert_self bag "share_info" (encodeShareInfo si)
  · exact lookup_bagInsert_self _ "auth" ("secret:" ++ w.fresh)
  · intro j hj
    have hd := congrArg String.data hj
    simp [String.data_append] at hd

/-- C8 witness: a concrete leader call with secrets available, instantiating
`set_share_secret_pointer`. -/
theorem set_share_secret_pointer_witness :
    (⟨true, "abc"⟩ : SecretsWorld).available = true ∧
    (∃ r, set_share true ⟨true, "abc"⟩ [] ⟨"f", "n", "/p", ["m"]⟩ ⟨"u", "k"⟩ = .ok r ∧
      r.bag.lookup "share_info" =
        some (encodeShareInfo ⟨"f", "n", "/p", ["m"]⟩) ∧
      r.bag.lookup "auth" = some ("secret:" ++ "abc") ∧
      r.grantedSecrets = ["secret:" ++ "abc"] ∧
      r.createdSecrets = [("secret:" ++ "abc", encodeAuthInfo ⟨"u", "k"⟩)] ∧
      (∀ j : String, "secret:" ++ "abc" ≠ "plain:" ++ j)) :=
  ⟨rfl, set_share_secret_pointer ⟨true, "abc"⟩ [] ⟨"f", "n", "/p", ["m"]⟩
    ⟨"u", "k"⟩ rfl⟩

